import Mathlib

/-!
# Verification of the Streamlit price tracker

A shallow embedding of `src/streamlit_price_tracker.py` — a single-file
periodic price tracker: it scrapes product pages, records price history in
two tables (`products`, `price_history`), and sends an email alert when a
price drops to or below a stored threshold.

Modelling conventions:
* Python `float` prices are modelled as `ℚ` (the strings parsed here are
  plain decimal numerals, whose denoted values are rational).
* The SQLite tables are modelled as lists of rows; autoincrement primary
  keys are modelled with explicit counters in the `DB` state.
* Network fetches and HTML pages are oracles passed in as functions:
  a `Page` abstracts the parsed soup (title, CSS-selector text lookup,
  `meta[itemprop=price]` content, text nodes), and `fetch : String →
  Option Page` returns `none` for a non-200 response or a request
  exception.
* `datetime.utcnow()` is modelled by an explicit `now : ℕ` argument.
-/

namespace PriceTracker

/-! ## `parse_price_text` (lines 100–113)

```python
def parse_price_text(text):
    if not text:
        return None
    filtered = ''.join(ch for ch in text if (ch.isdigit() or ch == '.' or ch == ','))
    if not filtered:
        return None
    filtered = filtered.replace(',', '')
    try:
        return float(filtered)
    except Exception:
        return None
```
-/

/-- Value of a digit string read in base 10 (most significant first). -/
def digitsVal (cs : List Char) : ℕ :=
  cs.foldl (fun a c => 10 * a + (c.toNat - 48)) 0

/-- Python `float(s)` restricted to the character set `parse_price_text`
can pass it (digits and dots): it succeeds exactly on strings made of
digits and at most one dot that contain at least one digit, and returns
the denoted decimal value. Any other character makes it fail. -/
def pyFloat (cs : List Char) : Option ℚ :=
  if (cs.all fun c => c.isDigit || c == '.') = true ∧
      cs.count '.' ≤ 1 ∧ (cs.any Char.isDigit) = true then
    let intPart := cs.takeWhile (fun c => c ≠ '.')
    let fracPart := (cs.dropWhile (fun c => c ≠ '.')).drop 1
    some ((digitsVal intPart : ℚ) + (digitsVal fracPart : ℚ) / (10 : ℚ) ^ fracPart.length)
  else none

/-- Embedding of `parse_price_text` from the source, on the character
list of the input string. -/
def parse_price_text (text : String) : Option ℚ :=
  if text = "" then none
  else
    let filtered := text.toList.filter fun ch => ch.isDigit || ch == '.' || ch == ','
    if filtered = [] then none
    else pyFloat (filtered.filter fun ch => ch ≠ ',')

/-- Spec-side meaning of a price string: the decimal numeral formed by its
digits and its (single) decimal point, read in order, ignoring grouping
commas and any other characters. -/
def denotedValue (text : String) : ℚ :=
  let cs := text.toList.filter fun c => c.isDigit || c == '.'
  let intPart := cs.takeWhile (fun c => c ≠ '.')
  let fracPart := (cs.dropWhile (fun c => c ≠ '.')).drop 1
  (digitsVal intPart : ℚ) + (digitsVal fracPart : ℚ) / (10 : ℚ) ^ fracPart.length

/-! ## Substring search (Python `in` on strings) -/

/-- Does `hay` start with `needle`? -/
def leadingMatch : List Char → List Char → Bool
  | [], _ => true
  | _ :: _, [] => false
  | a :: as, b :: bs => a == b && leadingMatch as bs

/-- Python `needle in hay` for strings: `needle` occurs as a contiguous
substring of `hay`. -/
def containsSeq (needle : List Char) : List Char → Bool
  | [] => leadingMatch needle []
  | b :: bs => leadingMatch needle (b :: bs) || containsSeq needle bs

/-- Python `needle in url` on strings. -/
def urlHas (needle url : String) : Bool :=
  containsSeq needle.toList url.toList

/-! ## Pages and the site scrapers (lines 116–186)

A `Page` abstracts the parsed BeautifulSoup document:
* `title` is `soup.find('title').get_text(strip=True)` (`none` when the
  element is absent);
* `selText sel` is `soup.select_one(sel).get_text()` (`none` when the
  selector matches no element; the stripped variant used in the guards is
  recovered with `String.trim`);
* `metaPriceContent` is `soup.select_one('meta[itemprop="price"]').get('content')`
  (`none` when the element is absent or has no `content` attribute);
* `texts` is `soup.find_all(text=True)`.
-/

structure Page where
  title : Option String
  selText : String → Option String
  metaPriceContent : Option String
  texts : List String

/-- The selector loop shared by `scrape_amazon_price` and
`scrape_flipkart_price`: try each selector in order; when the element
exists and its stripped text is nonempty, parse it; a parse result that is
`None` or `0.0` is falsy in Python (`if price:`), so the loop continues. -/
def trySelectors (page : Page) : List String → Option ℚ
  | [] => none
  | sel :: rest =>
    match page.selText sel with
    | none => trySelectors page rest
    | some txt =>
      if txt.trim = "" then trySelectors page rest
      else
        match parse_price_text txt with
        | none => trySelectors page rest
        | some price => if price = 0 then trySelectors page rest else some price

/-- Embedding of `scrape_amazon_price` (lines 116–129). -/
def scrape_amazon_price (page : Page) : Option ℚ :=
  trySelectors page ["#priceblock_ourprice", "#priceblock_dealprice", ".a-price .a-offscreen"]

/-- Embedding of `scrape_flipkart_price` (lines 132–144). -/
def scrape_flipkart_price (page : Page) : Option ℚ :=
  trySelectors page ["div._30jeq3._16Jk6d", "div._30jeq3"]

/-- The fallback loop of `detect_site_and_scrape` (lines 176–182): scan
the last 200 text nodes; a stripped text that is nonempty, contains a
digit and a currency marker (`₹`, `$` or `Rs.`) is parsed, and a truthy
(nonzero) parse is returned. -/
def scanTexts : List String → Option ℚ
  | [] => none
  | t :: rest =>
    let txt := t.trim
    if txt ≠ "" ∧ (txt.toList.any Char.isDigit) = true ∧
        (txt.toList.contains '₹' ∨ txt.toList.contains '$' ∨
          containsSeq "Rs.".toList txt.toList = true) then
      match parse_price_text txt with
      | none => scanTexts rest
      | some price => if price = 0 then scanTexts rest else some price
    else scanTexts rest

/-- Embedding of `detect_site_and_scrape` (lines 147–186): here
`fetch url = none` models a
non-200 status or a raised request exception (both return `(None, None)`).
The last 200 text nodes are `possible[-200:]`. -/
def detect_site_and_scrape (fetch : String → Option Page) (url : String) :
    Option String × Option ℚ :=
  match fetch url with
  | none => (none, none)
  | some page =>
    let title := page.title
    if urlHas "amazon." url then (title, scrape_amazon_price page)
    else if urlHas "flipkart." url then (title, scrape_flipkart_price page)
    else
      match page.metaPriceContent with
      | some content =>
        if content = "" then (title, scanTexts (page.texts.drop (page.texts.length - 200)))
        else (title, parse_price_text content)
      | none => (title, scanTexts (page.texts.drop (page.texts.length - 200)))

/-! ## Data model (lines 73–90)

`products` and `price_history` rows; integer autoincrement primary keys
are modelled by the `nextProdId` / `nextHistId` counters of the `DB`
state. -/

structure Product where
  id : ℕ
  name : Option String
  url : String
  desired_price : Option ℚ
  notify_email : Option String
deriving Repr, DecidableEq

structure PriceRow where
  id : ℕ
  product_id : ℕ
  price : ℚ
  timestamp : ℕ
deriving Repr, DecidableEq

structure DB where
  products : List Product
  history : List PriceRow
  nextProdId : ℕ
  nextHistId : ℕ
deriving Repr, DecidableEq

/-- One call of `send_email_notification` (line 249): the arguments the
job passes to the notifier. `productId` is the id of the product row whose
loop iteration made the call (it also appears in `url`/`productName`; the
id lets notifications be attributed to a product directly). -/
structure Notif where
  productId : ℕ
  email : String
  productName : String
  url : String
  oldPrice : Option ℚ
  newPrice : ℚ
deriving Repr, DecidableEq

/-- Python `a or b` for an optional string: `None` and `''` are falsy. -/
def pyOr (a : Option String) (b : String) : String :=
  match a with
  | some s => if s = "" then b else s
  | none => b

/-- The display name `p.name or title or 'Product'` (line 249). -/
def displayName (p : Product) (title : Option String) : String :=
  pyOr p.name (pyOr title "Product")

/-- The `last` query of the job (line 237):
`session.query(PriceHistory).filter(product_id == p.id).order_by(timestamp.desc()).first()`,
i.e. a row of maximal timestamp among the rows of this product (the first
such row in table order when timestamps tie). -/
def laterOf (acc : Option PriceRow) (r : PriceRow) : Option PriceRow :=
  match acc with
  | none => some r
  | some b => if b.timestamp < r.timestamp then some r else some b

def lastObs (h : List PriceRow) (pid : ℕ) : Option PriceRow :=
  (h.filter fun r => r.product_id = pid).foldl laterOf none

/-! ## The scheduled job `update_all_prices` (lines 227–250) -/

/-- The notifier calls made for one product, given the scrape title, the
last recorded price and the new price (lines 244–249):
notify exactly when a threshold is stored, the new price is at or below
it, the price strictly decreased versus the last observation (or there is
none), and a notification email is stored. -/
def notifDecision (p : Product) (title : Option String) (lastPrice : Option ℚ)
    (price : ℚ) : List Notif :=
  let fire : Bool :=
    match p.desired_price with
    | none => false
    | some dp =>
      decide (price ≤ dp) &&
        match lastPrice with
        | none => true
        | some lp => decide (price < lp)
  if fire then
    match p.notify_email with
    | some email => [⟨p.id, email, displayName p title, p.url, lastPrice, price⟩]
    | none => []
  else []

/-- One iteration of the job's product loop (lines 231–249): scrape; on
`None` price skip (`continue`); otherwise read the last observation,
append a new history row, and run the notification decision. -/
def processProduct (scrape : String → Option String × Option ℚ) (now : ℕ)
    (st : DB × List Notif) (p : Product) : DB × List Notif :=
  match scrape p.url with
  | (_, none) => st
  | (title, some price) =>
    let db := st.1
    let lastPrice := (lastObs db.history p.id).map fun r => r.price
    let db' : DB := { db with
      history := db.history ++ [⟨db.nextHistId, p.id, price, now⟩],
      nextHistId := db.nextHistId + 1 }
    (db', st.2 ++ notifDecision p title lastPrice price)

/-- The loop of `update_all_prices` over a product list. -/
def runProducts (scrape : String → Option String × Option ℚ) (now : ℕ) :
    List Product → DB × List Notif → DB × List Notif
  | [], st => st
  | p :: ps, st => runProducts scrape now ps (processProduct scrape now st p)

/-- Embedding of `update_all_prices` (lines 227–250): one run of the
scheduled job over
the current product table, returning the final database and the list of
notifier calls made, in order. -/
def update_all_prices (scrape : String → Option String × Option ℚ) (now : ℕ)
    (db : DB) : DB × List Notif :=
  runProducts scrape now db.products (db, [])

/-- The notifier calls of a run that belong to product id `pid`. -/
def notifsFor (pid : ℕ) (ns : List Notif) : List Notif :=
  ns.filter fun n => n.productId = pid

/-! ## Dashboard handlers (lines 266–337) -/

/-- The field updates of the add-form's update path (lines 283–285):
`prod.name = name`, `prod.desired_price = desired_price if desired_price > 0
else None`, `prod.notify_email = notify_email or None`. -/
def updFields (q : Product) (name : String) (desired : ℚ) (email : String) : Product :=
  { q with
    name := some name,
    desired_price := if 0 < desired then some desired else none,
    notify_email := if email = "" then none else some email }

/-- The lookup `session.query(Product).filter(Product.url == url).first()`
followed by an in-place update: only the first row whose `url` matches is updated. -/
def updateFirstByUrl (url name : String) (desired : ℚ) (email : String) :
    List Product → List Product
  | [] => []
  | q :: qs =>
    if q.url = url then updFields q name desired email :: qs
    else q :: updateFirstByUrl url name desired email qs

/-- The add-product form handler (lines 272–298). `desired` is the value
of the number input (`min_value=0.0`), `email` the text input (empty when
blank). An empty URL is rejected with no state change. Otherwise the page
is scraped once; `name = title or url`; if a product with this `url`
exists it is updated in place, else a new row is inserted and, when the
scrape found a price, an initial history row is appended for it. -/
def submitAddProduct (scrape : String → Option String × Option ℚ) (now : ℕ)
    (db : DB) (url : String) (desired : ℚ) (email : String) : DB :=
  if url = "" then db
  else
    match scrape url with
    | (title, priceOpt) =>
      let name := pyOr title url
      if db.products.any fun q => q.url = url then
        { db with products := updateFirstByUrl url name desired email db.products }
      else
        let newp : Product :=
          ⟨db.nextProdId, some name, url,
            (if 0 < desired then some desired else none),
            (if email = "" then none else some email)⟩
        match priceOpt with
        | some pr =>
          { db with
            products := db.products ++ [newp],
            history := db.history ++ [⟨db.nextHistId, newp.id, pr, now⟩],
            nextProdId := db.nextProdId + 1,
            nextHistId := db.nextHistId + 1 }
        | none =>
          { db with
            products := db.products ++ [newp],
            nextProdId := db.nextProdId + 1 }

/-- The remove-product button handler (lines 332–337): delete every
history row of the product, then the product row itself. -/
def removeProduct (db : DB) (pid : ℕ) : DB :=
  { db with
    history := db.history.filter fun r => ¬ r.product_id = pid,
    products := db.products.filter fun q => ¬ q.id = pid }

/-- The view-history button handler (lines 322–331):
`SELECT * FROM price_history WHERE product_id={p.id} ORDER BY timestamp`. -/
def viewHistory (db : DB) (pid : ℕ) : List PriceRow :=
  (db.history.filter fun r => r.product_id = pid).insertionSort
    fun a b => a.timestamp ≤ b.timestamp

/-! ## Supporting lemmas about the job loop -/

theorem runProducts_append (scrape : String → Option String × Option ℚ) (now : ℕ)
    (l1 l2 : List Product) (st : DB × List Notif) :
    runProducts scrape now (l1 ++ l2) st =
      runProducts scrape now l2 (runProducts scrape now l1 st) := by
  induction l1 generalizing st with
  | nil => rfl
  | cons q qs ih => simp [runProducts, ih]

theorem processProduct_skip (scrape : String → Option String × Option ℚ) (now : ℕ)
    (st : DB × List Notif) (p : Product) (t : Option String)
    (hscrape : scrape p.url = (t, none)) :
    processProduct scrape now st p = st := by
  simp [processProduct, hscrape]

theorem notifDecision_pid (p : Product) (title : Option String) (lastPrice : Option ℚ)
    (price : ℚ) (n : Notif) (hn : n ∈ notifDecision p title lastPrice price) :
    n.productId = p.id := by
  unfold notifDecision at hn
  rcases hp : p.notify_email with _ | email <;> rw [hp] at hn <;> split at hn <;>
    simp_all

theorem notifsFor_decision_self (p : Product) (title : Option String)
    (lastPrice : Option ℚ) (price : ℚ) :
    notifsFor p.id (notifDecision p title lastPrice price) =
      notifDecision p title lastPrice price := by
  unfold notifsFor
  apply List.filter_eq_self.mpr
  intro n hn
  simp [notifDecision_pid p title lastPrice price n hn]

theorem notifsFor_decision_other (q : Product) (pid : ℕ) (title : Option String)
    (lastPrice : Option ℚ) (price : ℚ) (hne : q.id ≠ pid) :
    notifsFor pid (notifDecision q title lastPrice price) = [] := by
  unfold notifsFor
  apply List.filter_eq_nil_iff.mpr
  intro n hn
  simp [notifDecision_pid q title lastPrice price n hn, hne]

theorem notifsFor_append (pid : ℕ) (a b : List Notif) :
    notifsFor pid (a ++ b) = notifsFor pid a ++ notifsFor pid b := by
  simp [notifsFor, List.filter_append]

theorem processProduct_other (scrape : String → Option String × Option ℚ) (now : ℕ)
    (st : DB × List Notif) (q : Product) (pid : ℕ) (hne : q.id ≠ pid) :
    ((processProduct scrape now st q).1.history.filter fun r => r.product_id = pid) =
      (st.1.history.filter fun r => r.product_id = pid) ∧
    notifsFor pid (processProduct scrape now st q).2 = notifsFor pid st.2 := by
  rcases hsq : scrape q.url with ⟨t, _ | pr⟩
  · rw [processProduct_skip scrape now st q t hsq]
    exact ⟨rfl, rfl⟩
  · constructor
    · simp [processProduct, hsq, List.filter_append, hne]
    · simp [processProduct, hsq, notifsFor_append,
        notifsFor_decision_other q pid t _ pr hne]

theorem runProducts_other (scrape : String → Option String × Option ℚ) (now : ℕ)
    (ps : List Product) (pid : ℕ) (hne : ∀ q ∈ ps, q.id ≠ pid) :
    ∀ st : DB × List Notif,
    ((runProducts scrape now ps st).1.history.filter fun r => r.product_id = pid) =
      (st.1.history.filter fun r => r.product_id = pid) ∧
    notifsFor pid (runProducts scrape now ps st).2 = notifsFor pid st.2 := by
  induction ps with
  | nil => intro st; exact ⟨rfl, rfl⟩
  | cons q qs ih =>
    intro st
    have hq : q.id ≠ pid := hne q (List.mem_cons_self q qs)
    have step := processProduct_other scrape now st q pid hq
    have rest := ih (fun r hr => hne r (List.mem_cons_of_mem q hr))
      (processProduct scrape now st q)
    exact ⟨(rest.1).trans step.1, (rest.2).trans step.2⟩

theorem lastObs_congr (h1 h2 : List PriceRow) (pid : ℕ)
    (h : (h1.filter fun r => r.product_id = pid) = h2.filter fun r => r.product_id = pid) :
    lastObs h1 pid = lastObs h2 pid := by
  unfold lastObs
  rw [h]

theorem mem_nodup_split (p : Product) (ps : List Product) (hmem : p ∈ ps)
    (hids : (ps.map Product.id).Nodup) :
    ∃ l1 l2, ps = l1 ++ p :: l2 ∧ (∀ q ∈ l1, q.id ≠ p.id) ∧ ∀ q ∈ l2, q.id ≠ p.id := by
  obtain ⟨l1, l2, rfl⟩ := List.append_of_mem hmem
  rw [List.map_append, List.map_cons] at hids
  obtain ⟨-, h2, hdisj⟩ := List.nodup_append.mp hids
  refine ⟨l1, l2, rfl, ?_, ?_⟩
  · intro q hq heq
    exact hdisj (List.mem_map_of_mem Product.id hq)
      (heq ▸ List.mem_cons_self p.id (l2.map Product.id))
  · intro q hq hqe
    exact (List.nodup_cons.mp h2).1 (hqe ▸ List.mem_map_of_mem Product.id hq)

/-- The run's notifier calls for a product `p` occurring once in the
product table: exactly the decision made from `p`'s scrape result and its
last observation in the starting database. -/
theorem run_notifs (scrape : String → Option String × Option ℚ) (now : ℕ) (db : DB)
    (p : Product) (l1 l2 : List Product) (title : Option String) (price : ℚ)
    (hdecomp : db.products = l1 ++ p :: l2)
    (h1 : ∀ q ∈ l1, q.id ≠ p.id) (h2 : ∀ q ∈ l2, q.id ≠ p.id)
    (hscrape : scrape p.url = (title, some price)) :
    notifsFor p.id (update_all_prices scrape now db).2 =
      notifDecision p title ((lastObs db.history p.id).map fun r => r.price) price := by
  unfold update_all_prices
  rw [hdecomp, runProducts_append]
  have pre := runProducts_other scrape now l1 p.id h1 (db, [])
  show notifsFor p.id (runProducts scrape now l2 (processProduct scrape now
      (runProducts scrape now l1 (db, [])) p)).2 = _
  have post := runProducts_other scrape now l2 p.id h2
    (processProduct scrape now (runProducts scrape now l1 (db, [])) p)
  rw [post.2]
  have hlast : lastObs (runProducts scrape now l1 (db, [])).1.history p.id =
      lastObs db.history p.id :=
    lastObs_congr _ _ p.id pre.1
  simp only [processProduct, hscrape]
  rw [notifsFor_append, pre.2, hlast, notifsFor_decision_self]
  simp [notifsFor]

theorem notifDecision_not_lower (p : Product) (t : Option String) (lp price : ℚ)
    (h : lp ≤ price) : notifDecision p t (some lp) price = [] := by
  unfold notifDecision
  rcases hd : p.desired_price with _ | dp
  · simp [hd]
  · simp [hd, not_lt.mpr h]

theorem notifDecision_no_email (p : Product) (t : Option String) (lp : Option ℚ)
    (price : ℚ) (h : p.notify_email = none) : notifDecision p t lp price = [] := by
  unfold notifDecision
  split <;> simp [h]

theorem notifDecision_first (p : Product) (t : Option String) (price dp : ℚ)
    (email : String) (hdp : p.desired_price = some dp) (he : p.notify_email = some email)
    (hle : price ≤ dp) :
    notifDecision p t none price =
      [⟨p.id, email, displayName p t, p.url, none, price⟩] := by
  unfold notifDecision
  simp [hdp, he, hle]

/-! ## Claim theorems -/

/-- C2: a product with a last recorded observation whose newly fetched
price is at least that last price triggers no notification in the run,
even when the new price is at or below the stored desired price. -/
theorem no_notify_when_price_not_lower
    (scrape : String → Option String × Option ℚ) (now : ℕ) (db : DB)
    (p : Product) (l : PriceRow) (title : Option String) (price : ℚ)
    (hmem : p ∈ db.products)
    (hids : (db.products.map Product.id).Nodup)
    (hlast : lastObs db.history p.id = some l)
    (hscrape : scrape p.url = (title, some price))
    (hge : l.price ≤ price) :
    notifsFor p.id (update_all_prices scrape now db).2 = [] := by
  obtain ⟨l1, l2, hdecomp, h1, h2⟩ := mem_nodup_split p db.products hmem hids
  rw [run_notifs scrape now db p l1 l2 title price hdecomp h1 h2 hscrape, hlast]
  exact notifDecision_not_lower p title l.price price hge

/-- C2 witness: product 1 has last price 30; the new price 40 is ≥ 30 and
≤ the threshold 50, and the run makes no notifier call for it. -/
theorem no_notify_when_price_not_lower_witness :
    notifsFor 1 (update_all_prices (fun _ => (some "T", some (40 : ℚ))) 7
      ⟨[⟨1, some "X", "u", some 50, some "a@b"⟩], [⟨1, 1, 30, 5⟩], 2, 2⟩).2 = [] :=
  no_notify_when_price_not_lower (fun _ => (some "T", some (40 : ℚ))) 7
    ⟨[⟨1, some "X", "u", some 50, some "a@b"⟩], [⟨1, 1, 30, 5⟩], 2, 2⟩
    ⟨1, some "X", "u", some 50, some "a@b"⟩ ⟨1, 1, 30, 5⟩ (some "T") 40
    (by decide) (by decide) (by decide) (by decide) (by decide)

/-- C9: a product with no stored notification email gets no notifier call
in a run, whatever price is fetched. -/
theorem no_email_no_notify
    (scrape : String → Option String × Option ℚ) (now : ℕ) (db : DB)
    (p : Product) (title : Option String) (price : ℚ)
    (hmem : p ∈ db.products)
    (hids : (db.products.map Product.id).Nodup)
    (hemail : p.notify_email = none)
    (hscrape : scrape p.url = (title, some price)) :
    notifsFor p.id (update_all_prices scrape now db).2 = [] := by
  obtain ⟨l1, l2, hdecomp, h1, h2⟩ := mem_nodup_split p db.products hmem hids
  rw [run_notifs scrape now db p l1 l2 title price hdecomp h1 h2 hscrape]
  exact notifDecision_no_email p title _ price hemail

/-- C9 witness: product 1 has no email; a first price 40 ≤ threshold 50
is fetched and the run makes no notifier call for it. -/
theorem no_email_no_notify_witness :
    notifsFor 1 (update_all_prices (fun _ => (none, some (40 : ℚ))) 0
      ⟨[⟨1, some "X", "u", some 50, none⟩], [], 2, 1⟩).2 = [] :=
  no_email_no_notify (fun _ => (none, some (40 : ℚ))) 0
    ⟨[⟨1, some "X", "u", some 50, none⟩], [], 2, 1⟩
    ⟨1, some "X", "u", some 50, none⟩ none 40
    (by decide) (by decide) (by decide) (by decide)

/-- C1 counterexample: a tracked product with no prior observation, a
stored desired price 50 but no stored notification email; the first
fetched price 40 is at or below 50, yet the run makes zero notification
attempts, not exactly one (the notifier is only called when
`p.notify_email` is set, line 248). -/
theorem first_drop_counterexample :
    (40 : ℚ) ≤ 50 ∧
    lastObs ([] : List PriceRow) 1 = none ∧
    ¬ (notifsFor 1 (update_all_prices (fun _ => (none, some (40 : ℚ))) 0
        ⟨[⟨1, some "X", "u", some 50, none⟩], [], 2, 1⟩).2).length = 1 := by
  refine ⟨by norm_num, rfl, ?_⟩
  decide

/-- C1 (amended): a tracked product with no prior observation, a stored
desired price and a stored notification email, whose first fetched price
is at or below the threshold, gets exactly one notification attempt in
the run. -/
theorem first_drop_notifies_once
    (scrape : String → Option String × Option ℚ) (now : ℕ) (db : DB)
    (p : Product) (title : Option String) (price dp : ℚ) (email : String)
    (hmem : p ∈ db.products)
    (hids : (db.products.map Product.id).Nodup)
    (hlast : lastObs db.history p.id = none)
    (hdp : p.desired_price = some dp)
    (hemail : p.notify_email = some email)
    (hscrape : scrape p.url = (title, some price))
    (hle : price ≤ dp) :
    notifsFor p.id (update_all_prices scrape now db).2 =
      [⟨p.id, email, displayName p title, p.url, none, price⟩] := by
  obtain ⟨l1, l2, hdecomp, h1, h2⟩ := mem_nodup_split p db.products hmem hids
  rw [run_notifs scrape now db p l1 l2 title price hdecomp h1 h2 hscrape, hlast]
  exact notifDecision_first p title price dp email hdp hemail hle

/-- C1 witness: product 1 (threshold 50, email stored, no history) gets
exactly the one notifier call for the first fetched price 40. -/
theorem first_drop_notifies_once_witness :
    notifsFor 1 (update_all_prices (fun _ => (none, some (40 : ℚ))) 0
      ⟨[⟨1, some "X", "u", some 50, some "a@b"⟩], [], 2, 1⟩).2 =
      [⟨1, "a@b", "X", "u", none, 40⟩] :=
  first_drop_notifies_once (fun _ => (none, some (40 : ℚ))) 0
    ⟨[⟨1, some "X", "u", some 50, some "a@b"⟩], [], 2, 1⟩
    ⟨1, some "X", "u", some 50, some "a@b"⟩ none 40 50 "a@b"
    (by decide) (by decide) (by decide) (by decide) (by decide) (by decide) (by decide)

/-- C5: when the scrape of a product yields no price, the run is the same
as a run with that product absent from the loop; in particular its
history rows are untouched and it gets no notifier call. The job never
raises: `update_all_prices` is a total function. -/
theorem extraction_failure_skips
    (scrape : String → Option String × Option ℚ) (now : ℕ) (db : DB)
    (p : Product) (l1 l2 : List Product) (t : Option String)
    (hdecomp : db.products = l1 ++ p :: l2)
    (hids : (db.products.map Product.id).Nodup)
    (hscrape : scrape p.url = (t, none)) :
    update_all_prices scrape now db = runProducts scrape now (l1 ++ l2) (db, []) ∧
    ((update_all_prices scrape now db).1.history.filter fun r => r.product_id = p.id) =
      (db.history.filter fun r => r.product_id = p.id) ∧
    notifsFor p.id (update_all_prices scrape now db).2 = [] := by
  have hskip : update_all_prices scrape now db =
      runProducts scrape now (l1 ++ l2) (db, []) := by
    unfold update_all_prices
    rw [hdecomp, runProducts_append]
    show runProducts scrape now l2 (processProduct scrape now
      (runProducts scrape now l1 (db, [])) p) = _
    rw [processProduct_skip scrape now _ p t hscrape, ← runProducts_append]
  rw [hdecomp, List.map_append, List.map_cons] at hids
  obtain ⟨-, h2, hdisj⟩ := List.nodup_append.mp hids
  have hall : ∀ q ∈ l1 ++ l2, q.id ≠ p.id := by
    intro q hq heq
    rcases List.mem_append.mp hq with hq1 | hq2
    · exact hdisj (List.mem_map_of_mem Product.id hq1)
        (heq ▸ List.mem_cons_self p.id (l2.map Product.id))
    · exact (List.nodup_cons.mp h2).1 (heq ▸ List.mem_map_of_mem Product.id hq2)
  have pres := runProducts_other scrape now (l1 ++ l2) p.id hall (db, [])
  refine ⟨hskip, ?_, ?_⟩
  · rw [hskip]; exact pres.1
  · rw [hskip]; exact pres.2

/-- C5 witness: product 1's scrape fails; product 2's succeeds. The run
equals the run over the other product alone, leaves product 1's history
untouched and makes no notifier call for it. -/
theorem extraction_failure_skips_witness :
    update_all_prices
        (fun u => if u = "u1" then (some "T", none) else (none, some (40 : ℚ))) 7
        ⟨[⟨1, some "X", "u1", some 50, some "a@b"⟩, ⟨2, some "Y", "u2", none, none⟩],
          [⟨1, 1, 30, 5⟩], 3, 2⟩ =
      runProducts (fun u => if u = "u1" then (some "T", none) else (none, some (40 : ℚ))) 7
        ([] ++ [⟨2, some "Y", "u2", none, none⟩])
        (⟨[⟨1, some "X", "u1", some 50, some "a@b"⟩, ⟨2, some "Y", "u2", none, none⟩],
          [⟨1, 1, 30, 5⟩], 3, 2⟩, []) ∧
    ((update_all_prices
        (fun u => if u = "u1" then (some "T", none) else (none, some (40 : ℚ))) 7
        ⟨[⟨1, some "X", "u1", some 50, some "a@b"⟩, ⟨2, some "Y", "u2", none, none⟩],
          [⟨1, 1, 30, 5⟩], 3, 2⟩).1.history.filter fun r => r.product_id = 1) =
      ([⟨1, 1, 30, 5⟩] : List PriceRow).filter (fun r => r.product_id = 1) ∧
    notifsFor 1 (update_all_prices
        (fun u => if u = "u1" then (some "T", none) else (none, some (40 : ℚ))) 7
        ⟨[⟨1, some "X", "u1", some 50, some "a@b"⟩, ⟨2, some "Y", "u2", none, none⟩],
          [⟨1, 1, 30, 5⟩], 3, 2⟩).2 = [] :=
  extraction_failure_skips
    (fun u => if u = "u1" then (some "T", none) else (none, some (40 : ℚ))) 7
    ⟨[⟨1, some "X", "u1", some 50, some "a@b"⟩, ⟨2, some "Y", "u2", none, none⟩],
      [⟨1, 1, 30, 5⟩], 3, 2⟩
    ⟨1, some "X", "u1", some 50, some "a@b"⟩ [] [⟨2, some "Y", "u2", none, none⟩]
    (some "T") (by decide) (by decide) (by decide)

/-- C6: removing a product deletes all of its observations: afterwards no
history row carries the removed id, and when every history row referenced
a tracked product before, every remaining row still does (no orphans). -/
theorem remove_product_no_orphans (db : DB) (pid : ℕ)
    (hinv : ∀ r ∈ db.history, ∃ q ∈ db.products, q.id = r.product_id) :
    (∀ r ∈ (removeProduct db pid).history, r.product_id ≠ pid) ∧
    ∀ r ∈ (removeProduct db pid).history,
      ∃ q ∈ (removeProduct db pid).products, q.id = r.product_id := by
  constructor
  · intro r hr
    unfold removeProduct at hr
    simp only [List.mem_filter, decide_eq_true_eq] at hr
    exact hr.2
  · intro r hr
    unfold removeProduct at hr ⊢
    simp only [List.mem_filter, decide_eq_true_eq] at hr
    obtain ⟨q, hq, hqid⟩ := hinv r hr.1
    refine ⟨q, ?_, hqid⟩
    simp only [List.mem_filter, decide_eq_true_eq]
    exact ⟨hq, by rw [hqid]; exact hr.2⟩

/-- C6 witness: with two tracked products and history rows for both,
removing product 1 leaves no row with id 1 and no orphaned row. -/
theorem remove_product_no_orphans_witness :
    (∀ r ∈ (removeProduct ⟨[⟨1, some "X", "u1", none, none⟩,
        ⟨2, some "Y", "u2", none, none⟩],
        [⟨1, 1, 30, 5⟩, ⟨2, 2, 9, 6⟩, ⟨3, 1, 28, 7⟩], 3, 4⟩ 1).history,
      r.product_id ≠ 1) ∧
    ∀ r ∈ (removeProduct ⟨[⟨1, some "X", "u1", none, none⟩,
        ⟨2, some "Y", "u2", none, none⟩],
        [⟨1, 1, 30, 5⟩, ⟨2, 2, 9, 6⟩, ⟨3, 1, 28, 7⟩], 3, 4⟩ 1).history,
      ∃ q ∈ (removeProduct ⟨[⟨1, some "X", "u1", none, none⟩,
        ⟨2, some "Y", "u2", none, none⟩],
        [⟨1, 1, 30, 5⟩, ⟨2, 2, 9, 6⟩, ⟨3, 1, 28, 7⟩], 3, 4⟩ 1).products,
        q.id = r.product_id :=
  remove_product_no_orphans
    ⟨[⟨1, some "X", "u1", none, none⟩, ⟨2, some "Y", "u2", none, none⟩],
      [⟨1, 1, 30, 5⟩, ⟨2, 2, 9, 6⟩, ⟨3, 1, 28, 7⟩], 3, 4⟩ 1 (by decide)

/-- C8: the history view of a product is a permutation of exactly its
stored history rows (prices unmodified), sorted by timestamp ascending,
and every returned row belongs to the product. -/
theorem view_history_ordered (db : DB) (pid : ℕ) :
    List.Perm (viewHistory db pid) (db.history.filter fun r => r.product_id = pid) ∧
    List.Sorted (fun a b : PriceRow => a.timestamp ≤ b.timestamp) (viewHistory db pid) ∧
    ∀ r ∈ viewHistory db pid, r.product_id = pid := by
  have hperm := List.perm_insertionSort (fun a b : PriceRow => a.timestamp ≤ b.timestamp)
    (db.history.filter fun r => r.product_id = pid)
  refine ⟨hperm, ?_, ?_⟩
  · haveI : IsTotal PriceRow fun a b => a.timestamp ≤ b.timestamp :=
      ⟨fun a b => Nat.le_total a.timestamp b.timestamp⟩
    haveI : IsTrans PriceRow fun a b => a.timestamp ≤ b.timestamp :=
      ⟨fun _ _ _ hab hbc => le_trans hab hbc⟩
    exact List.sorted_insertionSort _ _
  · intro r hr
    have hmem := hperm.mem_iff.mp hr
    exact of_decide_eq_true (List.mem_filter.mp hmem).2

/-- C8 witness: the spec's example: history `[100, 90, 95]` (stored out of
order here) is returned whole and ordered by timestamp. -/
theorem view_history_ordered_witness :
    List.Perm
      (viewHistory ⟨[], [⟨2, 1, 90, 2⟩, ⟨1, 1, 100, 1⟩, ⟨3, 1, 95, 3⟩, ⟨4, 2, 7, 0⟩], 0, 5⟩ 1)
      (([⟨2, 1, 90, 2⟩, ⟨1, 1, 100, 1⟩, ⟨3, 1, 95, 3⟩, ⟨4, 2, 7, 0⟩] :
        List PriceRow).filter fun r => r.product_id = 1) ∧
    List.Sorted (fun a b : PriceRow => a.timestamp ≤ b.timestamp)
      (viewHistory ⟨[], [⟨2, 1, 90, 2⟩, ⟨1, 1, 100, 1⟩, ⟨3, 1, 95, 3⟩, ⟨4, 2, 7, 0⟩], 0, 5⟩ 1) ∧
    ∀ r ∈ viewHistory ⟨[], [⟨2, 1, 90, 2⟩, ⟨1, 1, 100, 1⟩, ⟨3, 1, 95, 3⟩, ⟨4, 2, 7, 0⟩], 0, 5⟩ 1,
      r.product_id = 1 :=
  view_history_ordered ⟨[], [⟨2, 1, 90, 2⟩, ⟨1, 1, 100, 1⟩, ⟨3, 1, 95, 3⟩, ⟨4, 2, 7, 0⟩], 0, 5⟩ 1

theorem updFields_url (q : Product) (name : String) (desired : ℚ) (email : String) :
    (updFields q name desired email).url = q.url := rfl

theorem map_eq_self_of_no_match (url name : String) (desired : ℚ) (email : String)
    (qs : List Product) (h : ∀ r ∈ qs, r.url ≠ url) :
    (qs.map fun q => if q.url = url then updFields q name desired email else q) = qs := by
  induction qs with
  | nil => rfl
  | cons q qs ih =>
    rw [List.map_cons, if_neg (h q (List.mem_cons_self q qs)),
      ih fun r hr => h r (List.mem_cons_of_mem q hr)]

/-- On a table whose URLs are pairwise distinct, updating the first row
matching a URL is the same as updating every matching row. -/
theorem updateFirstByUrl_eq_map (url name : String) (desired : ℚ) (email : String)
    (ps : List Product) (hnd : (ps.map Product.url).Nodup) :
    updateFirstByUrl url name desired email ps =
      ps.map fun q => if q.url = url then updFields q name desired email else q := by
  induction ps with
  | nil => rfl
  | cons q qs ih =>
    rw [List.map_cons, List.nodup_cons] at hnd
    by_cases hq : q.url = url
    · rw [updateFirstByUrl, if_pos hq, List.map_cons, if_pos hq]
      have hrest : ∀ r ∈ qs, r.url ≠ url := by
        intro r hr heq
        apply hnd.1
        rw [hq, ← heq]
        exact List.mem_map_of_mem Product.url hr
      rw [map_eq_self_of_no_match url name desired email qs hrest]
    · rw [updateFirstByUrl, if_neg hq, List.map_cons, if_neg hq, ih hnd.2]

/-- C7: submitting the add form for an already-tracked URL (URLs pairwise
distinct) rewrites that product's name, threshold and email in place:
the table is the pointwise update of the old one (same length, no second
row), the history is untouched, and URLs remain pairwise distinct. -/
theorem readd_updates_in_place
    (scrape : String → Option String × Option ℚ) (now : ℕ) (db : DB)
    (url : String) (desired : ℚ) (email : String) (q0 : Product)
    (title : Option String) (priceOpt : Option ℚ)
    (hurl : url ≠ "")
    (hq0 : q0 ∈ db.products) (hq0url : q0.url = url)
    (hurls : (db.products.map Product.url).Nodup)
    (hscrape : scrape url = (title, priceOpt)) :
    (submitAddProduct scrape now db url desired email).products =
      (db.products.map fun q => if q.url = url then
        updFields q (pyOr title url) desired email else q) ∧
    (submitAddProduct scrape now db url desired email).history = db.history ∧
    ((submitAddProduct scrape now db url desired email).products.map Product.url).Nodup ∧
    (submitAddProduct scrape now db url desired email).products.length =
      db.products.length := by
  have hany : (db.products.any fun q => q.url = url) = true :=
    List.any_eq_true.mpr ⟨q0, hq0, by simp [hq0url]⟩
  have hprod : (submitAddProduct scrape now db url desired email).products =
      (db.products.map fun q => if q.url = url then
        updFields q (pyOr title url) desired email else q) := by
    unfold submitAddProduct
    rw [if_neg hurl, hscrape]
    simp only [hany, if_true]
    exact updateFirstByUrl_eq_map url (pyOr title url) desired email db.products hurls
  have hurlmap : ((submitAddProduct scrape now db url desired email).products.map
      Product.url) = db.products.map Product.url := by
    rw [hprod, List.map_map]
    apply List.map_congr_left
    intro a _
    by_cases ha : a.url = url <;> simp [ha, updFields_url]
  refine ⟨hprod, ?_, ?_, ?_⟩
  · unfold submitAddProduct
    rw [if_neg hurl, hscrape]
    simp only [hany, if_true]
  · rw [hurlmap]; exact hurls
  · rw [hprod, List.length_map]

/-- C7 witness: re-adding tracked URL `u1` with a new threshold and email
updates the row in place: same table shape, history untouched, URLs still
distinct. -/
theorem readd_updates_in_place_witness :
    (submitAddProduct (fun _ => (some "T", some (40 : ℚ))) 9
        ⟨[⟨1, some "X", "u1", some 50, none⟩, ⟨2, some "Y", "u2", none, none⟩],
          [⟨1, 1, 30, 5⟩], 3, 2⟩ "u1" 20 "c@d").products =
      (([⟨1, some "X", "u1", some 50, none⟩, ⟨2, some "Y", "u2", none, none⟩] :
          List Product).map fun q => if q.url = "u1" then
        updFields q (pyOr (some "T") "u1") 20 "c@d" else q) ∧
    (submitAddProduct (fun _ => (some "T", some (40 : ℚ))) 9
        ⟨[⟨1, some "X", "u1", some 50, none⟩, ⟨2, some "Y", "u2", none, none⟩],
          [⟨1, 1, 30, 5⟩], 3, 2⟩ "u1" 20 "c@d").history = [⟨1, 1, 30, 5⟩] ∧
    ((submitAddProduct (fun _ => (some "T", some (40 : ℚ))) 9
        ⟨[⟨1, some "X", "u1", some 50, none⟩, ⟨2, some "Y", "u2", none, none⟩],
          [⟨1, 1, 30, 5⟩], 3, 2⟩ "u1" 20 "c@d").products.map Product.url).Nodup ∧
    (submitAddProduct (fun _ => (some "T", some (40 : ℚ))) 9
        ⟨[⟨1, some "X", "u1", some 50, none⟩, ⟨2, some "Y", "u2", none, none⟩],
          [⟨1, 1, 30, 5⟩], 3, 2⟩ "u1" 20 "c@d").products.length =
      ([⟨1, some "X", "u1", some 50, none⟩, ⟨2, some "Y", "u2", none, none⟩] :
        List Product).length :=
  readd_updates_in_place (fun _ => (some "T", some (40 : ℚ))) 9
    ⟨[⟨1, some "X", "u1", some 50, none⟩, ⟨2, some "Y", "u2", none, none⟩],
      [⟨1, 1, 30, 5⟩], 3, 2⟩ "u1" 20 "c@d" ⟨1, some "X", "u1", some 50, none⟩
    (some "T") (some 40) (by decide) (by decide) rfl (by decide) rfl

theorem notifDecision_no_threshold (p : Product) (t : Option String) (lp : Option ℚ)
    (price : ℚ) (h : p.desired_price = none) : notifDecision p t lp price = [] := by
  unfold notifDecision
  simp [h]

/-- Companion to `run_notifs`: a product whose scrape yields no price gets
no notifier call in the run. -/
theorem run_notifs_none (scrape : String → Option String × Option ℚ) (now : ℕ)
    (db : DB) (p : Product) (l1 l2 : List Product) (t : Option String)
    (hdecomp : db.products = l1 ++ p :: l2)
    (h1 : ∀ q ∈ l1, q.id ≠ p.id) (h2 : ∀ q ∈ l2, q.id ≠ p.id)
    (hscrape : scrape p.url = (t, none)) :
    notifsFor p.id (update_all_prices scrape now db).2 = [] := by
  unfold update_all_prices
  rw [hdecomp, runProducts_append]
  show notifsFor p.id (runProducts scrape now l2 (processProduct scrape now
    (runProducts scrape now l1 (db, [])) p)).2 = []
  rw [processProduct_skip scrape now _ p t hscrape]
  have pre := runProducts_other scrape now l1 p.id h1 (db, [])
  have post := runProducts_other scrape now l2 p.id h2
    (runProducts scrape now l1 (db, []))
  rw [post.2, pre.2]
  rfl

/-- C10: submitting the add form with desired price 0 stores no threshold
(`None`), in the update path and in the create path alike; and a product
whose stored threshold is `None` never gets a notifier call in any run. -/
theorem zero_desired_stores_none
    (scrape : String → Option String × Option ℚ) (now : ℕ) (db : DB)
    (url email : String)
    (hurl : url ≠ "")
    (hurls : (db.products.map Product.url).Nodup) :
    (∀ q ∈ (submitAddProduct scrape now db url 0 email).products,
        q.url = url → q.desired_price = none) ∧
    ∀ (scrape2 : String → Option String × Option ℚ) (now2 : ℕ) (db2 : DB)
      (p : Product), p ∈ db2.products → (db2.products.map Product.id).Nodup →
      p.desired_price = none →
      notifsFor p.id (update_all_prices scrape2 now2 db2).2 = [] := by
  constructor
  · intro q hq hqurl
    unfold submitAddProduct at hq
    rw [if_neg hurl] at hq
    rcases hs : scrape url with ⟨title, priceOpt⟩
    rw [hs] at hq
    by_cases hany : (db.products.any fun q => q.url = url) = true
    · simp only [hany, if_true] at hq
      rw [updateFirstByUrl_eq_map url (pyOr title url) 0 email db.products hurls] at hq
      obtain ⟨r, hr, rfl⟩ := List.mem_map.mp hq
      by_cases hru : r.url = url
      · rw [if_pos hru]
        show (if (0 : ℚ) < 0 then some (0 : ℚ) else none) = none
        rw [if_neg (lt_irrefl 0)]
      · rw [if_neg hru] at hqurl ⊢
        exact absurd hqurl hru
    · have hno : ∀ x ∈ db.products, ¬ x.url = url := by
        intro x hx hxu
        exact hany (List.any_eq_true.mpr ⟨x, hx, by simp [hxu]⟩)
      have hdes : (if (0 : ℚ) < 0 then some (0 : ℚ) else none) = none :=
        if_neg (lt_irrefl 0)
      rcases priceOpt with _ | pr <;>
        (dsimp only at hq
         rw [if_neg hany] at hq
         dsimp only at hq
         rcases List.mem_append.mp hq with hin | hin
         · exact absurd hqurl (hno q hin)
         · rw [List.mem_singleton.mp hin]
           exact hdes)
  · intro scrape2 now2 db2 p hmem hids hnone
    obtain ⟨l1, l2, hdecomp, h1, h2⟩ := mem_nodup_split p db2.products hmem hids
    rcases hs2 : scrape2 p.url with ⟨t, _ | pr⟩
    · exact run_notifs_none scrape2 now2 db2 p l1 l2 t hdecomp h1 h2 hs2
    · rw [run_notifs scrape2 now2 db2 p l1 l2 t pr hdecomp h1 h2 hs2]
      exact notifDecision_no_threshold p t _ pr hnone

/-- C10 witness: updating tracked `u1` with desired price 0 stores `None`,
and the zero-threshold run-level consequence instantiated. -/
theorem zero_desired_stores_none_witness :
    (∀ q ∈ (submitAddProduct (fun _ => (some "T", some (40 : ℚ))) 9
        ⟨[⟨1, some "X", "u1", some 50, none⟩], [], 2, 1⟩ "u1" 0 "c@d").products,
        q.url = "u1" → q.desired_price = none) ∧
    ∀ (scrape2 : String → Option String × Option ℚ) (now2 : ℕ) (db2 : DB)
      (p : Product), p ∈ db2.products → (db2.products.map Product.id).Nodup →
      p.desired_price = none →
      notifsFor p.id (update_all_prices scrape2 now2 db2).2 = [] :=
  zero_desired_stores_none (fun _ => (some "T", some (40 : ℚ))) 9
    ⟨[⟨1, some "X", "u1", some 50, none⟩], [], 2, 1⟩ "u1" "c@d"
    (by decide) (by decide)

/-- C3 (code bug): the character filter of `parse_price_text` keeps the
abbreviation dot of `Rs.` and `float` then reads it as a decimal point:
`parse_price_text "Rs. 500"` is `0.5`, not the denoted value `500` — and
the trailing-text scan (line 179) explicitly feeds `Rs.`-marked texts to
this parser. Strings with no digits do yield `None`. -/
theorem parse_price_text_rs_dot_bug :
    parse_price_text "Rs. 500" = some ((1 : ℚ) / 2) ∧
    ¬ ((1 : ℚ) / 2 = 500) ∧
    parse_price_text "abc" = none := by
  refine ⟨?_, by norm_num, rfl⟩
  have hp : parse_price_text "Rs. 500" =
      some ((digitsVal ([] : List Char) : ℚ) +
        (digitsVal ['5', '0', '0'] : ℚ) / (10 : ℚ) ^ 3) := rfl
  have h0 : digitsVal ([] : List Char) = 0 := rfl
  have h5 : digitsVal ['5', '0', '0'] = 500 := rfl
  rw [hp, h0, h5]
  norm_num

/-- C4 counterexample: an Amazon URL whose page has no matching selector
but a parseable `meta[itemprop=price]` content `"99.99"`: the claimed
fallback to the metadata lookup would yield a price, but the code answers
`None` for the price (lines 162–164 return directly). -/
theorem detect_no_fallback_counterexample :
    (detect_site_and_scrape
        (fun _ => some ⟨some "T", fun _ => none, some "99.99", []⟩)
        "https://www.amazon.example/item").2 = none ∧
    parse_price_text "99.99" ≠ none := by
  refine ⟨rfl, ?_⟩
  have hp : parse_price_text "99.99" =
      some ((digitsVal ['9', '9'] : ℚ) +
        (digitsVal ['9', '9'] : ℚ) / (10 : ℚ) ^ 2) := rfl
  rw [hp]
  exact Option.some_ne_none _

/-- C4 (amended): the extraction rules are tried in this order, with no
fallback out of a chosen family: a URL containing `amazon.` gets exactly
the Amazon selector list (whatever the page's metadata or trailing text);
otherwise `flipkart.` gets the Flipkart selector list; otherwise, when the
metadata element carries nonempty content, its parse is the final answer
(even when it parses to no price); only when that element is absent or
empty does the trailing-text scan run. -/
theorem detect_order_amended (fetch : String → Option Page) (url : String) (page : Page)
    (hfetch : fetch url = some page) :
    (urlHas "amazon." url = true →
      detect_site_and_scrape fetch url = (page.title, scrape_amazon_price page)) ∧
    (urlHas "amazon." url = false →
      urlHas "flipkart." url = true →
      detect_site_and_scrape fetch url = (page.title, scrape_flipkart_price page)) ∧
    (∀ content, urlHas "amazon." url = false →
      urlHas "flipkart." url = false →
      page.metaPriceContent = some content → content ≠ "" →
      detect_site_and_scrape fetch url = (page.title, parse_price_text content)) ∧
    (urlHas "amazon." url = false →
      urlHas "flipkart." url = false →
      (page.metaPriceContent = none ∨ page.metaPriceContent = some "") →
      detect_site_and_scrape fetch url =
        (page.title, scanTexts (page.texts.drop (page.texts.length - 200)))) := by
  unfold detect_site_and_scrape
  rw [hfetch]
  refine ⟨?_, ?_, ?_, ?_⟩
  · intro ha
    simp [ha]
  · intro ha hf
    simp [ha, hf]
  · intro content ha hf hm hc
    simp [ha, hf, hm, hc]
  · intro ha hf hm
    rcases hm with hm | hm <;> simp [ha, hf, hm]

/-- C4 witness: a generic URL whose page carries an unparseable metadata
price `"abc"`: the metadata rule is chosen and its failed parse is final
(the trailing `"$5"` text is not scanned). -/
theorem detect_order_amended_witness :
    detect_site_and_scrape
        (fun _ => some ⟨some "T", fun _ => none, some "abc", ["$5"]⟩)
        "https://shop.example/x" =
      (some "T", parse_price_text "abc") :=
  (detect_order_amended (fun _ => some ⟨some "T", fun _ => none, some "abc", ["$5"]⟩)
    "https://shop.example/x" ⟨some "T", fun _ => none, some "abc", ["$5"]⟩
    rfl).2.2.1 "abc" (by decide) (by decide) rfl (by decide)

end PriceTracker
